import Mathlib

/-!
Shallow embedding of the pytds TDS session engine core (src/pytds/tds.py):
the packet writer and reader framing, the session state machine, the
DONE/ENVCHANGE token handlers, the PRELOGIN encryption negotiation and the
LOGIN7 password obfuscation, together with proofs about them.

Bytes are modelled as natural numbers, byte strings as lists of naturals,
Python text strings as lists of UCS-2 code units.  Fallible reads return
Option; raised exceptions are an explicit value of an exception type.
Constants that live in the external tds_base / collate modules (which are
not part of the embedded source) are modelled from the specification where
it states them (DONE status bits, PRELOGIN encryption values, packet types)
and from MS-TDS for the remaining numeric token ids.
-/

namespace Pytds

/-- Exceptions that the embedded code can raise.  The three database error
categories carry the presented message text (as a list of code units);
the remaining constructors model tds_base.InterfaceError, tds_base.Error,
tds_base.TimeoutError, tds_base.ClosedConnectionError, Python IndexError,
struct.error and running off the end of a transport script. -/
inductive Exc where
  | programmingError (text : List Nat)
  | integrityError (text : List Nat)
  | operationalError (text : List Nat)
  | interfaceError
  | genericError
  | timeoutError
  | closedConnection
  | indexError
  | structError
  | outOfScript
deriving DecidableEq

/-- DONE status bit: more results follow (spec section 6: MORE=0x01). -/
def TDS_DONE_MORE_RESULTS : Nat := 1
/-- DONE status bit: error occurred (spec section 6: ERROR=0x02). -/
def TDS_DONE_ERROR : Nat := 2
/-- DONE status bit: row count valid (spec section 6: COUNT=0x10). -/
def TDS_DONE_COUNT : Nat := 16
/-- DONE status bit: request was cancelled (spec section 6: CANCELLED=0x20). -/
def TDS_DONE_CANCELLED : Nat := 32
/-- Packet type of a CANCEL request (spec section 3: CANCEL=6). -/
def CANCEL_PACKET : Nat := 6
/-- Modelled from the spec: tds_base.TDS_NO_COUNT, the sentinel stored in
rows_affected when no count is available; its concrete value is immaterial
to every claim. -/
def TDS_NO_COUNT : Int := -1

/-- ENVCHANGE subtype ids.  Modelled from the spec (section 4.3 lists the
subtypes; numeric ids per MS-TDS, since tds_base is external to the
embedded source; the routing id 20 is a literal in the source). -/
def TDS_ENV_DATABASE : Nat := 1
def TDS_ENV_LANG : Nat := 2
def TDS_ENV_CHARSET : Nat := 3
def TDS_ENV_PACKSIZE : Nat := 4
def TDS_ENV_LCID : Nat := 5
def TDS_ENV_UNICODE_DATA_SORT_COMP_FLAGS : Nat := 6
def TDS_ENV_SQLCOLLATION : Nat := 7
def TDS_ENV_BEGINTRANS : Nat := 8
def TDS_ENV_COMMITTRANS : Nat := 9
def TDS_ENV_ROLLBACKTRANS : Nat := 10
def TDS_ENV_DB_MIRRORING_PARTNER : Nat := 13
def TDS_ENV_ROUTING : Nat := 20

/-- PRELOGIN option ids.  Modelled from the spec (section 4.4 names the
options and gives the terminator 0xFF; numeric ids per MS-TDS, since
tds_base.PreLoginToken is external to the embedded source). -/
def PRELOGIN_VERSION : Nat := 0
def PRELOGIN_ENCRYPTION : Nat := 1
def PRELOGIN_INSTOPT : Nat := 2
def PRELOGIN_THREADID : Nat := 3
def PRELOGIN_MARS : Nat := 4
def PRELOGIN_TERMINATOR : Nat := 255

/-- PRELOGIN encryption values (spec section 6: OFF=0, ON=1, REQ=2,
NOT_SUP=3). -/
def ENCRYPT_OFF : Nat := 0
def ENCRYPT_ON : Nat := 1
def ENCRYPT_REQ : Nat := 2
def ENCRYPT_NOT_SUP : Nat := 3

/-! ### Primitive byte-stream decoding (the _TdsReader unpack helpers,
operating on an explicit list of bytes) -/

/-- readall: take exactly n bytes from the stream or fail. -/
def readBytes (n : Nat) (l : List Nat) : Option (List Nat × List Nat) :=
  if n ≤ l.length then some (l.take n, l.drop n) else none

/-- Little-endian value of a byte list (first byte least significant). -/
def leValue : List Nat → Nat
  | [] => 0
  | b :: r => b + 256 * leValue r

/-- Two's-complement reinterpretation of a w-bit unsigned value. -/
def toSigned (w : Nat) (v : Nat) : Int :=
  if v < 2 ^ (w - 1) then (v : Int) else (v : Int) - 2 ^ w

/-- Unsigned little-endian read of n bytes. -/
def getUintLE (n : Nat) (l : List Nat) : Option (Nat × List Nat) :=
  (readBytes n l).map fun p => (leValue p.1, p.2)

/-- _TdsReader.get_byte. -/
def getByte (l : List Nat) : Option (Nat × List Nat) :=
  match l with
  | [] => none
  | b :: r => some (b, r)

/-- _TdsReader.get_usmallint (16-bit unsigned little-endian). -/
def getUsmallint (l : List Nat) : Option (Nat × List Nat) := getUintLE 2 l

/-- _TdsReader.get_smallint (16-bit signed little-endian). -/
def getSmallint (l : List Nat) : Option (Int × List Nat) :=
  (getUintLE 2 l).map fun p => (toSigned 16 p.1, p.2)

/-- _TdsReader.get_int (32-bit signed little-endian). -/
def getInt (l : List Nat) : Option (Int × List Nat) :=
  (getUintLE 4 l).map fun p => (toSigned 32 p.1, p.2)

/-- _TdsReader.get_int8 (64-bit signed little-endian). -/
def getInt8 (l : List Nat) : Option (Int × List Nat) :=
  (getUintLE 8 l).map fun p => (toSigned 64 p.1, p.2)

/-- _TdsReader.get_uint8 (64-bit unsigned little-endian). -/
def getUint8 (l : List Nat) : Option (Nat × List Nat) := getUintLE 8 l

/-- Decode UCS-2-LE byte pairs into code units. -/
def ucs2decode : List Nat → List Nat
  | b0 :: b1 :: r => (b0 + 256 * b1) :: ucs2decode r
  | _ => []

/-- Encode code units as UCS-2-LE byte pairs (the external ucs2_codec,
modelled from the spec, which fixes UCS-2-LE encoding for all strings). -/
def ucs2encode : List Nat → List Nat
  | [] => []
  | u :: us => u % 256 :: u / 256 % 256 :: ucs2encode us

/-- _TdsReader.read_ucs2: read numChars UCS-2 characters. -/
def readUcs2 (numChars : Nat) (l : List Nat) : Option (List Nat × List Nat) :=
  (readBytes (2 * numChars) l).map fun p => (ucs2decode p.1, p.2)

/-- skipall: discard exactly n bytes. -/
def skipBytes (n : Nat) (l : List Nat) : Option (List Nat) :=
  (readBytes n l).map fun p => p.2

/-- get_collation: a 5-byte collation structure, kept raw. -/
def readCollation (l : List Nat) : Option (List Nat × List Nat) := readBytes 5 l

/-- Whether a code unit is an ASCII decimal digit. -/
def isDigitUnit (u : Nat) : Bool := 48 ≤ u && u ≤ 57

/-- Python int() applied to a decimal-digit string of code units (the only
shape the embedded call sites feed it); none models ValueError. -/
def pythonInt (units : List Nat) : Option Nat :=
  if units ≠ [] ∧ units.all isDigitUnit then
    some (units.foldl (fun a u => a * 10 + (u - 48)) 0)
  else none

/-- Reversed little-endian decimal digits of n (empty for 0). -/
def digitsRev (n : Nat) : List Nat :=
  if h : n = 0 then [] else n % 10 :: digitsRev (n / 10)
decreasing_by exact Nat.div_lt_self (Nat.pos_of_ne_zero h) (by omega)

/-- Decimal digits of n, most significant first (Python str(n)). -/
def decimalDigits (n : Nat) : List Nat :=
  if n = 0 then [0] else (digitsRev n).reverse

/-- Code units of the decimal representation of n. -/
def decimalUnits (n : Nat) : List Nat := (decimalDigits n).map (· + 48)

/-- Space-join a list of strings (code-unit lists), as str.join does. -/
def joinSpace : List (List Nat) → List Nat
  | [] => []
  | [s] => s
  | s :: r => s ++ 32 :: joinSpace r

/-- 16-bit little-endian encoding used when building test streams. -/
def u16le (v : Nat) : List Nat := [v % 256, v / 256]

/-! ### _TdsWriter -/

/-- State of a _TdsWriter: the internal buffer, the write position, the
running packet number, the current packet type, and the list of byte blocks
passed to transport.sendall so far. -/
structure TdsWriter where
  buf : List Nat
  pos : Nat
  packetNo : Nat
  ptype : Nat
  sent : List (List Nat)
deriving DecidableEq

/-- The 8-byte TDS packet header, struct format >BBHHBx: type, status,
length (u16 big-endian), spid (u16 big-endian), packet number, pad.
Multi-byte fields are reduced mod 256 per byte to keep the function total
(struct.pack_into would raise on out-of-range values, which no embedded
call site produces). -/
def packHeader (ptype status length spid pno : Nat) : List Nat :=
  [ptype % 256, status % 256, length / 256 % 256, length % 256,
   spid / 256 % 256, spid % 256, pno % 256, 0]

/-- _TdsWriter._write_packet: pack the header into the first 8 bytes of the
buffer, send buf[:pos] to the transport, bump the packet number mod 256 and
reset the position past the header. -/
def TdsWriter.write_packet (w : TdsWriter) (final : Bool) : TdsWriter :=
  let status : Nat := if final then 1 else 0
  let buf2 := packHeader w.ptype status w.pos 0 w.packetNo ++ w.buf.drop 8
  { buf := buf2
    pos := 8
    packetNo := (w.packetNo + 1) % 256
    ptype := w.ptype
    sent := w.sent ++ [buf2.take w.pos] }

/-- _TdsWriter.begin_packet: set the packet type and reserve the header. -/
def TdsWriter.begin_packet (w : TdsWriter) (packetType : Nat) : TdsWriter :=
  { w with ptype := packetType, pos := 8 }

/-- _TdsWriter.flush: emit the current buffer as the final packet. -/
def TdsWriter.flush (w : TdsWriter) : TdsWriter := w.write_packet true

/-- _TdsWriter.write: copy data into the buffer, flushing intermediate
non-final packets whenever the buffer fills.  The source loop advances
data_off past copied bytes and emits a packet whenever no room is left;
the early return in the degenerate case where a freshly emitted packet
leaves no room (buffer of at most 8 bytes, on which the source loop would
never terminate) is unreachable for every real buffer size. -/
def TdsWriter.write (w : TdsWriter) (data : List Nat) : TdsWriter :=
  match data with
  | [] => w
  | d :: ds =>
    if w.buf.length ≤ w.pos then
      if (w.write_packet false).buf.length ≤ (w.write_packet false).pos then
        w.write_packet false
      else (w.write_packet false).write (d :: ds)
    else
      let toWrite := min (w.buf.length - w.pos) (d :: ds).length
      TdsWriter.write
        { w with
            buf := w.buf.take w.pos ++ (d :: ds).take toWrite ++ w.buf.drop (w.pos + toWrite)
            pos := w.pos + toWrite }
        ((d :: ds).drop toWrite)
termination_by data.length * 2 + (if w.buf.length ≤ w.pos then 1 else 0)
decreasing_by
all_goals
  simp only [List.length_cons, List.length_drop]
  repeat' split
all_goals omega

/-- The bufsize property setter: grow the buffer with zero bytes or
truncate it to the requested size. -/
def TdsWriter.set_bufsize (w : TdsWriter) (n : Nat) : TdsWriter :=
  if w.buf.length = n then w
  else if n > w.buf.length then
    { w with buf := w.buf ++ List.replicate (n - w.buf.length) 0 }
  else
    { w with buf := w.buf.take n }

/-- The payload portion of the current buffer (bytes between the header and
the write position): what the next emitted packet would carry. -/
def pending (w : TdsWriter) : List Nat := (w.buf.take w.pos).drop 8

/-- The payload (bytes after the 8-byte header) of an emitted packet. -/
def pktPayload (p : List Nat) : List Nat := p.drop 8

/-- The status byte of an emitted packet. -/
def pktStatus (p : List Nat) : Nat := p.getD 1 0

/-- Concatenated payloads of a list of emitted packets. -/
def payloads (ps : List (List Nat)) : List Nat := (ps.map pktPayload).flatten

/-- _TdsSession.put_cancel: begin a CANCEL packet and flush it immediately;
returns the new writer state and the in_cancel flag value (set to true). -/
def put_cancel (w : TdsWriter) : TdsWriter × Bool :=
  ((w.begin_packet CANCEL_PACKET).flush, true)

/-- The wire bytes of the CANCEL packet put_cancel emits from writer w. -/
def cancelWire (w : TdsWriter) : List Nat := packHeader CANCEL_PACKET 1 8 0 w.packetNo

/-! ### _TdsReader._read_packet over a transport script -/

/-- One transport interaction: recv_into either returns a chunk of bytes
(possibly empty, signalling an orderly close) or times out. -/
inductive RecvEvent where
  | chunk (l : List Nat)
  | timeout
deriving DecidableEq

/-- Result of the while-loop that reads until a byte count is reached. -/
inductive RecvOutcome where
  | ok (acc : List Nat) (rest : List RecvEvent)
  | timedOut (rest : List RecvEvent)
  | closed (rest : List RecvEvent)
  | outOfScript
deriving DecidableEq

/-- The read loop of _TdsReader._read_packet: repeatedly recv_into until
need bytes have accumulated; a zero-byte read raises ClosedConnectionError,
a timeout propagates.  Each iteration consumes one scripted event; the
transport hands over at most the number of bytes still needed. -/
def recvLoop (script : List RecvEvent) (need : Nat) (acc : List Nat) : RecvOutcome :=
  if need ≤ acc.length then .ok acc script
  else
    match script with
    | [] => .outOfScript
    | .timeout :: rest => .timedOut rest
    | .chunk l :: rest =>
      let got := l.take (need - acc.length)
      if got.length = 0 then .closed rest
      else recvLoop rest need (acc ++ got)

/-- Result of _TdsReader._read_packet: the writer (mutated if put_cancel
ran), the in_cancel flag, the error raised if any, the parsed header
fields (type, status, size, spid), the bytes accumulated in the buffer and
the remaining transport script. -/
structure ReadPacketResult where
  writer : TdsWriter
  inCancel : Bool
  err : Option Exc
  header : Option (Nat × Nat × Nat × Nat)
  bytes : List Nat
  rest : List RecvEvent
deriving DecidableEq

/-- _TdsReader._read_packet.  Only the 8-byte header read is guarded by the
try/except that emits a CANCEL on timeout; the body read loop sits outside
that guard in the source.  Header layout per struct >BBHHBx. -/
def read_packet (w : TdsWriter) (inCancel : Bool) (script : List RecvEvent) : ReadPacketResult :=
  match recvLoop script 8 [] with
  | .outOfScript =>
    { writer := w, inCancel := inCancel, err := some .outOfScript,
      header := none, bytes := [], rest := [] }
  | .timedOut rest =>
    let pc := put_cancel w
    { writer := pc.1, inCancel := pc.2, err := some .timeoutError,
      header := none, bytes := [], rest := rest }
  | .closed rest =>
    { writer := w, inCancel := inCancel, err := some .closedConnection,
      header := none, bytes := [], rest := rest }
  | .ok hdr rest =>
    let ptype := hdr.getD 0 0
    let status := hdr.getD 1 0
    let size := hdr.getD 2 0 * 256 + hdr.getD 3 0
    let spid := hdr.getD 4 0 * 256 + hdr.getD 5 0
    match recvLoop rest size hdr with
    | .outOfScript =>
      { writer := w, inCancel := inCancel, err := some .outOfScript,
        header := some (ptype, status, size, spid), bytes := hdr, rest := [] }
    | .timedOut rest2 =>
      { writer := w, inCancel := inCancel, err := some .timeoutError,
        header := some (ptype, status, size, spid), bytes := hdr, rest := rest2 }
    | .closed rest2 =>
      { writer := w, inCancel := inCancel, err := some .closedConnection,
        header := some (ptype, status, size, spid), bytes := hdr, rest := rest2 }
    | .ok full rest2 =>
      { writer := w, inCancel := inCancel, err := none,
        header := some (ptype, status, size, spid), bytes := full, rest := rest2 }

/-- Spec-side helper: the header read of the script times out. -/
def headerTimeout (script : List RecvEvent) : Bool :=
  match recvLoop script 8 [] with
  | .timedOut _ => true
  | _ => false

/-- Spec-side helper: the header read succeeds and the body read times out. -/
def bodyTimeout (script : List RecvEvent) : Bool :=
  match recvLoop script 8 [] with
  | .ok hdr rest =>
    match recvLoop rest (hdr.getD 2 0 * 256 + hdr.getD 3 0) hdr with
    | .timedOut _ => true
    | _ => false
  | _ => false

/-- Spec-side helper: some read of the script returns zero bytes. -/
def readClosed (script : List RecvEvent) : Bool :=
  match recvLoop script 8 [] with
  | .closed _ => true
  | .ok hdr rest =>
    match recvLoop rest (hdr.getD 2 0 * 256 + hdr.getD 3 0) hdr with
    | .closed _ => true
    | _ => false
  | _ => false

/-! ### _TdsSession: state machine, messages, DONE handling -/

/-- The five session states (tds_base.TDS_IDLE and friends). -/
inductive TdsState where
  | idle
  | querying
  | pending
  | reading
  | dead
deriving DecidableEq

/-- A server message record as accumulated by process_msg. -/
structure Msg where
  marker : Nat
  msgno : Nat
  state : Nat
  severity : Nat
  message : List Nat
  server : List Nat
  procName : List Nat
  lineNumber : Int
deriving DecidableEq

/-- The _Results fields process_end touches. -/
structure ResInfo where
  moreResults : Bool
  rowCount : Nat
deriving DecidableEq

/-- The _TdsSession fields touched by set_state, process_end and
raise_db_exception. -/
structure Sess where
  state : TdsState
  inCancel : Bool
  messages : List Msg
  rowsAffected : Int
  doneFlags : Nat
  moreRows : Bool
  endMarker : Nat
  internalSpCalled : Nat
  resInfo : Option ResInfo
  tds72plus : Bool
deriving DecidableEq

/-- _TdsSession.set_state: switch the session state with transition checks.
Returns the session as left by the method together with the exception it
raises, if any; on a raise the session is returned unchanged, exactly as in
the source where the raise precedes every assignment. -/
def set_state (s : Sess) (st : TdsState) : Sess × Option Exc :=
  if st = s.state then (s, none)
  else
    match st with
    | .pending =>
      if s.state = .reading ∨ s.state = .querying then
        ({ s with state := .pending }, none)
      else (s, some .interfaceError)
    | .reading =>
      if s.state ≠ .pending then (s, some .interfaceError)
      else ({ s with state := st }, none)
    | .idle =>
      if s.state = .dead then (s, some .interfaceError)
      else ({ s with state := st }, none)
    | .dead => ({ s with state := st }, none)
    | .querying =>
      if s.state = .dead then (s, some .interfaceError)
      else if s.state ≠ .idle then (s, some .interfaceError)
      else ({ s with rowsAffected := TDS_NO_COUNT, internalSpCalled := 0, state := st }, none)

/-- Spec-side relation: the transitions the claim documents as permitted
(QUERYING only from IDLE, READING only from PENDING, PENDING only from
QUERYING or READING, IDLE from any state except DEAD, DEAD from any state,
same-state always allowed). -/
def legalTransition (prior new : TdsState) : Bool :=
  new == prior ||
    match new with
    | .querying => prior == .idle
    | .reading => prior == .pending
    | .pending => prior == .querying || prior == .reading
    | .idle => prior != .dead
    | .dead => true

/-- _create_exception_by_message, parameterised by the two curated msgno
sets (tds_base.prog_errors and tds_base.integrity_errors, which live in the
external tds_base module).  Only the exception category and presented
message are modelled; the source additionally copies the message record
fields onto the exception object. -/
def create_exception_by_message (progErrors integrityErrors : Nat → Bool)
    (msg : Msg) (customErrorMsg : Option (List Nat)) : Exc :=
  let errorMsg := customErrorMsg.getD msg.message
  if progErrors msg.msgno then .programmingError errorMsg
  else if integrityErrors msg.msgno then .integrityError errorMsg
  else .operationalError errorMsg

/-- The while-loop of raise_db_exception: repeatedly pop the last message
while its msgno is 3621.  Returns the remaining list together with the
message the loop stopped on; none in the second component means the list
became empty and the next messages[-1] access raises IndexError. -/
def trimLoop (ms : List Msg) : List Msg × Option Msg :=
  match h : ms.getLast? with
  | none => (ms, none)
  | some m =>
    if m.msgno = 3621 then trimLoop ms.dropLast
    else (ms, some m)
termination_by ms.length
decreasing_by
  have : ms ≠ [] := by
    intro he
    rw [he] at h
    simp [List.getLast?] at h
  simp only [List.length_dropLast]
  have : 0 < ms.length := List.length_pos.mpr this
  omega

/-- _TdsSession.raise_db_exception.  Always produces an exception; the
session is returned with the messages list as the loop left it. -/
def raise_db_exception (progErrors integrityErrors : Nat → Bool) (s : Sess) : Sess × Exc :=
  if s.messages = [] then (s, .genericError)
  else
    match trimLoop s.messages with
    | (ms, none) => ({ s with messages := ms }, .indexError)
    | (ms, some m) =>
      let errorMsg := joinSpace (ms.map Msg.message)
      ({ s with messages := ms }, create_exception_by_message progErrors integrityErrors m (some errorMsg))

/-- _TdsSession.process_end: read a DONE/DONEPROC/DONEINPROC stream.
Returns none when the reader stream is exhausted mid-token (the source
would raise a transport-level error); otherwise returns the session as
left by the method, the remaining stream, and the exception raised (by
set_state or raise_db_exception), if any.  Mutations made before a raise
are kept, mutations after it are skipped, as in the source. -/
def process_end (progErrors integrityErrors : Nat → Bool) (s : Sess) (marker : Nat)
    (rd : List Nat) : Option (Sess × List Nat × Option Exc) :=
  let s1 := { s with endMarker := marker, moreRows := false }
  match getUsmallint rd with
  | none => none
  | some (status, rd1) =>
    match getUsmallint rd1 with
    | none => none
    | some (_curCmd, rd2) =>
      let moreResults : Bool := status &&& TDS_DONE_MORE_RESULTS != 0
      let wasCancelled : Bool := status &&& TDS_DONE_CANCELLED != 0
      let doneCountValid : Bool := status &&& TDS_DONE_COUNT != 0
      let s2 :=
        match s1.resInfo with
        | some ri => { s1 with resInfo := some { ri with moreResults := moreResults } }
        | none => s1
      match (if s2.tds72plus then getInt8 rd2 else getInt rd2) with
      | none => none
      | some (rowsAffected, rd3) =>
        let step :=
          if wasCancelled || (!moreResults && !s2.inCancel) then
            set_state { s2 with inCancel := false } .idle
          else (s2, none)
        match step with
        | (s3, some e) => some (s3, rd3, some e)
        | (s3, none) =>
          let s4 :=
            if doneCountValid then { s3 with rowsAffected := rowsAffected }
            else { s3 with rowsAffected := -1 }
          let s5 := { s4 with doneFlags := status }
          if s5.doneFlags &&& TDS_DONE_ERROR != 0 && !wasCancelled && !s5.inCancel then
            let re := raise_db_exception progErrors integrityErrors s5
            some (re.1, rd3, some re.2)
          else some (s5, rd3, none)

/-- Spec-side trimming: remove the trailing run of msgno-3621 messages. -/
def specTrim (ms : List Msg) : List Msg :=
  (ms.reverse.dropWhile (fun m => m.msgno == 3621)).reverse

/-- Spec-side description of the exception the error-elevation path builds:
trailing 3621 messages removed, classifier is the last remaining message,
text is the space-joined text of the remaining messages. -/
def specDbException (progErrors integrityErrors : Nat → Bool) (ms : List Msg) : Exc :=
  match (specTrim ms).getLast? with
  | some c =>
    create_exception_by_message progErrors integrityErrors c
      (some (joinSpace ((specTrim ms).map Msg.message)))
  | none => .indexError

/-- Whether an exception is one of the three documented database error
categories. -/
def isDbException : Exc → Bool
  | .programmingError _ => true
  | .integrityError _ => true
  | .operationalError _ => true
  | _ => false

/-- The byte stream of a DONE token body: status u16le, cur_cmd u16le,
then the rows-affected field (whose width process_end chooses from the
TDS version); tail supplies those and any following bytes. -/
def doneStream (status curCmd : Nat) (tail : List Nat) : List Nat :=
  u16le status ++ u16le curCmd ++ tail

/-! ### process_env_chg -/

/-- The connection- and session-level fields the ENVCHANGE handler can
mutate: the _TdsSocket environment plus the session writer.  Strings are
lists of code units; the collation is kept as its 5 raw bytes; the server
codec is represented by the looked-up codec name. -/
structure EnvState where
  collation : Option (List Nat)
  tds72transaction : Nat
  database : Option (List Nat)
  language : Option (List Nat)
  charset : Option (List Nat)
  serverCodec : Option (List Nat)
  compFlags : Option (List Nat)
  route : Option (List Nat × Nat)
  writer : TdsWriter
deriving DecidableEq

/-- The code units of the Python literal iso_1. -/
def isoOneName : List Nat := [105, 115, 111, 95, 49]

/-- The code units of the Python literal iso8859-1. -/
def iso88591Name : List Nat := [105, 115, 111, 56, 56, 53, 57, 45, 49]

/-- The charset alias remap applied before codecs.lookup. -/
def charsetRemap (name : List Nat) : List Nat :=
  if name = isoOneName then iso88591Name else name

/-- _TdsSession.process_env_chg over an explicit byte stream.
lcid2charset models the external LCID-to-charset table from the collate
module; codecs.lookup is modelled as recording the looked-up name.
Returns none when the stream is exhausted mid-token, when the
begin-transaction size assertion fails, or when int() raises; otherwise
the updated state and the remaining stream. -/
def process_env_chg (lcid2charset : Nat → List Nat) (st : EnvState)
    (rd : List Nat) : Option (EnvState × List Nat) :=
  match getSmallint rd with
  | none => none
  | some (size, rd0) =>
    match getByte rd0 with
    | none => none
    | some (typeId, rd1) =>
      if typeId = TDS_ENV_SQLCOLLATION then
        match getByte rd1 with
        | none => none
        | some (sz, rd2) =>
          match readCollation rd2 with
          | none => none
          | some (coll, rd3) =>
            match skipBytes (sz - 5) rd3 with
            | none => none
            | some rd4 =>
              match getByte rd4 with
              | none => none
              | some (oldSz, rd5) =>
                match skipBytes oldSz rd5 with
                | none => none
                | some rd6 => some ({ st with collation := some coll }, rd6)
      else if typeId = TDS_ENV_BEGINTRANS then
        match getByte rd1 with
        | none => none
        | some (sz, rd2) =>
          if sz ≠ 8 then none
          else
            match getUint8 rd2 with
            | none => none
            | some (tran, rd3) =>
              match getByte rd3 with
              | none => none
              | some (oldSz, rd4) =>
                match skipBytes oldSz rd4 with
                | none => none
                | some rd5 => some ({ st with tds72transaction := tran }, rd5)
      else if typeId = TDS_ENV_COMMITTRANS ∨ typeId = TDS_ENV_ROLLBACKTRANS then
        match getByte rd1 with
        | none => none
        | some (sz1, rd2) =>
          match skipBytes sz1 rd2 with
          | none => none
          | some rd3 =>
            match getByte rd3 with
            | none => none
            | some (sz2, rd4) =>
              match skipBytes sz2 rd4 with
              | none => none
              | some rd5 => some ({ st with tds72transaction := 0 }, rd5)
      else if typeId = TDS_ENV_PACKSIZE then
        match getByte rd1 with
        | none => none
        | some (n1, rd2) =>
          match readUcs2 n1 rd2 with
          | none => none
          | some (newval, rd3) =>
            match getByte rd3 with
            | none => none
            | some (n2, rd4) =>
              match readUcs2 n2 rd4 with
              | none => none
              | some (_oldval, rd5) =>
                match pythonInt newval with
                | none => none
                | some newBlockSize =>
                  if 512 ≤ newBlockSize then
                    some ({ st with writer := st.writer.set_bufsize newBlockSize }, rd5)
                  else some (st, rd5)
      else if typeId = TDS_ENV_DATABASE then
        match getByte rd1 with
        | none => none
        | some (n1, rd2) =>
          match readUcs2 n1 rd2 with
          | none => none
          | some (newval, rd3) =>
            match getByte rd3 with
            | none => none
            | some (n2, rd4) =>
              match readUcs2 n2 rd4 with
              | none => none
              | some (_oldval, rd5) => some ({ st with database := some newval }, rd5)
      else if typeId = TDS_ENV_LANG then
        match getByte rd1 with
        | none => none
        | some (n1, rd2) =>
          match readUcs2 n1 rd2 with
          | none => none
          | some (newval, rd3) =>
            match getByte rd3 with
            | none => none
            | some (n2, rd4) =>
              match readUcs2 n2 rd4 with
              | none => none
              | some (_oldval, rd5) => some ({ st with language := some newval }, rd5)
      else if typeId = TDS_ENV_CHARSET then
        match getByte rd1 with
        | none => none
        | some (n1, rd2) =>
          match readUcs2 n1 rd2 with
          | none => none
          | some (newval, rd3) =>
            match getByte rd3 with
            | none => none
            | some (n2, rd4) =>
              match readUcs2 n2 rd4 with
              | none => none
              | some (_oldval, rd5) =>
                some ({ st with charset := some newval,
                                serverCodec := some (charsetRemap newval) }, rd5)
      else if typeId = TDS_ENV_DB_MIRRORING_PARTNER then
        match getByte rd1 with
        | none => none
        | some (n1, rd2) =>
          match readUcs2 n1 rd2 with
          | none => none
          | some (_newval, rd3) =>
            match getByte rd3 with
            | none => none
            | some (n2, rd4) =>
              match readUcs2 n2 rd4 with
              | none => none
              | some (_oldval, rd5) => some (st, rd5)
      else if typeId = TDS_ENV_LCID then
        match getByte rd1 with
        | none => none
        | some (n1, rd2) =>
          match readUcs2 n1 rd2 with
          | none => none
          | some (lcidStr, rd3) =>
            match pythonInt lcidStr with
            | none => none
            | some lcid =>
              match getByte rd3 with
              | none => none
              | some (n2, rd4) =>
                match readUcs2 n2 rd4 with
                | none => none
                | some (_oldval, rd5) =>
                  some ({ st with serverCodec := some (lcid2charset lcid) }, rd5)
      else if typeId = TDS_ENV_UNICODE_DATA_SORT_COMP_FLAGS then
        match getByte rd1 with
        | none => none
        | some (n1, rd2) =>
          match readUcs2 n1 rd2 with
          | none => none
          | some (_oldCompFlags, rd3) =>
            match getByte rd3 with
            | none => none
            | some (n2, rd4) =>
              match readUcs2 n2 rd4 with
              | none => none
              | some (compFlags, rd5) =>
                some ({ st with compFlags := some compFlags }, rd5)
      else if typeId = TDS_ENV_ROUTING then
        match getUsmallint rd1 with
        | none => none
        | some (_sz, rd2) =>
          match getByte rd2 with
          | none => none
          | some (_protocol, rd3) =>
            match getUsmallint rd3 with
            | none => none
            | some (protocolProperty, rd4) =>
              match getUsmallint rd4 with
              | none => none
              | some (nlen, rd5) =>
                match readUcs2 nlen rd5 with
                | none => none
                | some (altServer, rd6) =>
                  match getUsmallint rd6 with
                  | none => none
                  | some (_oldval, rd7) =>
                    some ({ st with route := some (altServer, protocolProperty) }, rd7)
      else
        match skipBytes (size - 1).toNat rd1 with
        | none => none
        | some rd2 => some (st, rd2)

/-- The byte stream of a packet-size ENVCHANGE token body carrying the
decimal representation of v as new value and an empty old value; the two
leading bytes are the token size field, which the PACKSIZE branch never
uses. -/
def packsizeStream (szb0 szb1 v : Nat) (tail : List Nat) : List Nat :=
  szb0 :: szb1 :: TDS_ENV_PACKSIZE :: (decimalUnits v).length ::
    (ucs2encode (decimalUnits v) ++ 0 :: tail)

/-! ### parse_prelogin -/

/-- Result of a successful parse_prelogin: the server encryption flag
recorded on the login, whether tls.establish_channel was called, the MARS
flag if the server sent one, and the server library version if sent. -/
structure PreloginResult where
  serverEncFlag : Nat
  tlsEstablished : Bool
  marsEnabled : Option Bool
  serverVersion : Option (Nat × Nat)
deriving DecidableEq

/-- Big-endian u16 read at an absolute offset. -/
def readU16BE (p : List Nat) (off : Nat) : Option Nat :=
  match p.get? off, p.get? (off + 1) with
  | some b0, some b1 => some (b0 * 256 + b1)
  | _, _ => none

/-- Big-endian u32 read at an absolute offset. -/
def readU32BE (p : List Nat) (off : Nat) : Option Nat :=
  match p.get? off, p.get? (off + 1), p.get? (off + 2), p.get? (off + 3) with
  | some b0, some b1, some b2, some b3 =>
    some (((b0 * 256 + b1) * 256 + b2) * 256 + b3)
  | _, _, _, _ => none

/-- The option-table loop of parse_prelogin, walking the suffix of the
packet that starts at the current option record.  Running off the end
without a terminator, or a record whose offset/length fall outside the
packet, is bad_stream (InterfaceError); a record header or payload cut off
where struct.unpack_from would fail is struct.error.  Collects the
encryption flag (default 2), the server version and the MARS flag. -/
def parseLoop (p : List Nat) : List Nat → Nat → Option (Nat × Nat) → Option Bool →
    Except Exc (Nat × Option (Nat × Nat) × Option Bool)
  | [], _, _, _ => .error .interfaceError
  | t :: rest, crypt, ver, mars =>
    if t = PRELOGIN_TERMINATOR then .ok (crypt, ver, mars)
    else
      match rest with
      | o1 :: o2 :: l1 :: l2 :: rest2 =>
        let off := o1 * 256 + o2
        let len := l1 * 256 + l2
        if off > p.length ∨ off + len > p.length then .error .interfaceError
        else if t = PRELOGIN_VERSION then
          match readU32BE p off, readU16BE p (off + 4) with
          | some v4, some v2 => parseLoop p rest2 crypt (some (v4, v2)) mars
          | _, _ => .error .structError
        else if t = PRELOGIN_ENCRYPTION ∧ 1 ≤ len then
          match p.get? off with
          | some b => parseLoop p rest2 b ver mars
          | none => .error .structError
        else if t = PRELOGIN_MARS then
          match p.get? off with
          | some b => parseLoop p rest2 crypt ver (some (b != 0))
          | none => .error .structError
        else parseLoop p rest2 crypt ver mars
      | _ :: _ =>
        if rest.length < 3 then .error .interfaceError else .error .structError
      | [] => .error .interfaceError

/-- _TdsSession.parse_prelogin: walk the option table, then apply the
encryption matrix to the collected server flag and the client flag.
bad_stream raises InterfaceError; the two explicit incompatibility raises
are tds_base.Error.  On success the result records whether a TLS channel
was established (for a server flag of ENCRYPT_OFF the caller later reverts
the channel to plaintext after the login packet). -/
def parse_prelogin (octets : List Nat) (clientEncFlag : Nat) : Except Exc PreloginResult :=
  match parseLoop octets octets 2 none none with
  | .error e => .error e
  | .ok (crypt, ver, mars) =>
    if crypt = ENCRYPT_OFF then
      if clientEncFlag = ENCRYPT_ON then .error .interfaceError
      else .ok { serverEncFlag := crypt, tlsEstablished := true,
                 marsEnabled := mars, serverVersion := ver }
    else if crypt = ENCRYPT_ON then
      .ok { serverEncFlag := crypt, tlsEstablished := true,
            marsEnabled := mars, serverVersion := ver }
    else if crypt = ENCRYPT_REQ then
      if clientEncFlag = ENCRYPT_NOT_SUP then .error .genericError
      else .ok { serverEncFlag := crypt, tlsEstablished := true,
                 marsEnabled := mars, serverVersion := ver }
    else if crypt = ENCRYPT_NOT_SUP then
      if clientEncFlag = ENCRYPT_ON then .error .genericError
      else .ok { serverEncFlag := crypt, tlsEstablished := false,
                 marsEnabled := mars, serverVersion := ver }
    else .error .interfaceError

/-- A minimal PRELOGIN reply packet: a single ENCRYPTION option record
carrying the byte sflag, then the terminator, then the one payload byte. -/
def encPacket (sflag : Nat) : List Nat :=
  [PRELOGIN_ENCRYPTION, 0, 6, 0, 1, PRELOGIN_TERMINATOR, sflag]

/-! ### tds7_crypt_pass -/

/-- The per-byte transform of tds7_crypt_pass. -/
def cryptByte (b : Nat) : Nat := (((b <<< 4) &&& 255) ||| (b >>> 4)) ^^^ 165

/-- The inverse the claim describes: XOR with 0xA5, then swap nibbles. -/
def uncryptByte (c : Nat) : Nat :=
  let d := c ^^^ 165
  ((d <<< 4) &&& 255) ||| (d >>> 4)

/-- tds7_crypt_pass: encode the password in UCS-2-LE and apply the byte
transform to every byte. -/
def tds7_crypt_pass (password : List Nat) : List Nat :=
  (ucs2encode password).map cryptByte

/-! ### Concrete fixtures used by witnesses and counterexamples -/

/-- A small concrete writer: 12-byte buffer, fresh counters, nothing sent. -/
def sampleWriter : TdsWriter :=
  { buf := List.replicate 12 0, pos := 8, packetNo := 0, ptype := 0, sent := [] }

/-- A concrete server message with an ordinary msgno. -/
def sampleMsg : Msg :=
  { marker := 170, msgno := 105, state := 2, severity := 16,
    message := [97, 98], server := [115], procName := [], lineNumber := 1 }

/-- A concrete message carrying msgno 3621. -/
def sampleMsg3621 : Msg :=
  { marker := 170, msgno := 3621, state := 1, severity := 0,
    message := [99], server := [115], procName := [], lineNumber := 1 }

/-- A concrete pending session holding one ordinary message. -/
def sampleSess : Sess :=
  { state := .pending, inCancel := false, messages := [sampleMsg],
    rowsAffected := 0, doneFlags := 0, moreRows := true, endMarker := 0,
    internalSpCalled := 0, resInfo := none, tds72plus := false }

/-- A concrete pending session whose only message has msgno 3621. -/
def sampleSessAll3621 : Sess :=
  { state := .pending, inCancel := false, messages := [sampleMsg3621],
    rowsAffected := 0, doneFlags := 0, moreRows := true, endMarker := 0,
    internalSpCalled := 0, resInfo := none, tds72plus := false }

/-! ## Lemmas about the writer -/

theorem length_packHeader (a b c d e : Nat) : (packHeader a b c d e).length = 8 := rfl

theorem take8_packHeader (a b c d e : Nat) (r : List Nat) :
    (packHeader a b c d e ++ r).take 8 = packHeader a b c d e := by
  conv_lhs => rw [show (8 : Nat) = (packHeader a b c d e).length from rfl]
  exact List.take_left _ _

theorem write_packet_sent (w : TdsWriter) (f : Bool) :
    (w.write_packet f).sent
      = w.sent ++ [(packHeader w.ptype (if f then 1 else 0) w.pos 0 w.packetNo
                      ++ w.buf.drop 8).take w.pos] := rfl

theorem write_packet_pos (w : TdsWriter) (f : Bool) : (w.write_packet f).pos = 8 := rfl

theorem write_packet_ptype (w : TdsWriter) (f : Bool) : (w.write_packet f).ptype = w.ptype := rfl

theorem write_packet_buf_length (w : TdsWriter) (f : Bool) (h : 8 ≤ w.buf.length) :
    (w.write_packet f).buf.length = w.buf.length := by
  simp [TdsWriter.write_packet, packHeader]
  omega

theorem pending_write_packet (w : TdsWriter) (f : Bool) :
    pending (w.write_packet f) = [] := by
  have h : ((w.write_packet f).buf.take (w.write_packet f).pos).length ≤ 8 := by
    simp [write_packet_pos]
  exact List.drop_eq_nil_iff.mpr h

theorem pending_begin_packet (w : TdsWriter) (t : Nat) :
    pending (w.begin_packet t) = [] := by
  have h : ((w.begin_packet t).buf.take (w.begin_packet t).pos).length ≤ 8 := by
    simp [TdsWriter.begin_packet]
  exact List.drop_eq_nil_iff.mpr h

theorem emitted_payload (w : TdsWriter) (st : Nat) (h8 : 8 ≤ w.pos) :
    pktPayload ((packHeader w.ptype st w.pos 0 w.packetNo ++ w.buf.drop 8).take w.pos)
      = pending w := by
  unfold pktPayload pending
  rw [List.take_append_eq_append_take]
  rw [List.take_of_length_le (by simp [length_packHeader]; omega)]
  rw [List.drop_append_eq_append_drop]
  rw [List.drop_of_length_le (by simp [length_packHeader])]
  simp [length_packHeader, List.drop_take]

theorem emitted_status (w : TdsWriter) (st : Nat) (h2 : 2 ≤ w.pos) (hst : st < 256) :
    pktStatus ((packHeader w.ptype st w.pos 0 w.packetNo ++ w.buf.drop 8).take w.pos)
      = st := by
  unfold pktStatus
  obtain ⟨n, hn⟩ : ∃ n, w.pos = n + 2 := ⟨w.pos - 2, by omega⟩
  rw [show packHeader w.ptype st w.pos 0 w.packetNo ++ w.buf.drop 8
        = w.ptype % 256 :: st % 256 ::
            ([w.pos / 256 % 256, w.pos % 256, 0, 0, w.packetNo % 256, 0] ++ w.buf.drop 8)
      from by simp [packHeader]]
  rw [hn]
  simp [List.take_succ_cons, List.getD, Nat.mod_eq_of_lt hst]

/-- The central invariant of _TdsWriter.write: it emits only non-final
packets, and the payloads it emits followed by what remains pending equal
what was pending before followed by the written data; buffer length, type
and the position invariants are preserved. -/
theorem write_spec : ∀ (w : TdsWriter) (data : List Nat),
    8 < w.buf.length → 8 ≤ w.pos → w.pos ≤ w.buf.length →
    ∃ ps, (w.write data).sent = w.sent ++ ps ∧
      (∀ p ∈ ps, pktStatus p = 0) ∧
      payloads ps ++ pending (w.write data) = pending w ++ data ∧
      8 ≤ (w.write data).pos ∧ (w.write data).pos ≤ (w.write data).buf.length ∧
      (w.write data).buf.length = w.buf.length ∧
      (w.write data).ptype = w.ptype := by
  intro w data
  induction w, data using TdsWriter.write.induct with
  | case1 w =>
    intro hbuf hpos hposle
    exact ⟨[], by simp [TdsWriter.write, payloads]; omega⟩
  | case2 w d ds h1 h2 =>
    intro hbuf hpos hposle
    exfalso
    rw [write_packet_buf_length w false (by omega), write_packet_pos] at h2
    omega
  | case3 w d ds h1 h2 ih =>
    intro hbuf hpos hposle
    have hblen : (w.write_packet false).buf.length = w.buf.length :=
      write_packet_buf_length w false (by omega)
    obtain ⟨ps, hsent, hstat, hpay, hp1, hp2, hp3, hp4⟩ :=
      ih (by omega) (by rw [write_packet_pos]) (by rw [write_packet_pos]; omega)
    have hw : w.write (d :: ds) = (w.write_packet false).write (d :: ds) := by
      rw [TdsWriter.write]
      simp [h1, h2]
    rw [hw]
    refine ⟨(packHeader w.ptype 0 w.pos 0 w.packetNo ++ w.buf.drop 8).take w.pos :: ps, ?_, ?_, ?_, hp1, hp2, by omega, by rw [hp4, write_packet_ptype]⟩
    · rw [hsent, write_packet_sent]
      simp
    · intro p hp
      rcases List.mem_cons.mp hp with hp | hp
      · rw [hp]
        exact emitted_status w 0 (by omega) (by omega)
      · exact hstat p hp
    · have hpend : pending (w.write_packet false) = [] := pending_write_packet w false
      rw [hpend] at hpay
      simp only [payloads, List.map_cons, List.flatten_cons]
      rw [List.append_assoc]
      rw [show payloads ps = (ps.map pktPayload).flatten from rfl] at hpay
      rw [hpay]
      simp [emitted_payload w 0 hpos]
  | case4 w d ds h1 tw ih =>
    intro hbuf hpos hposle
    have htw : tw = min (w.buf.length - w.pos) (d :: ds).length := rfl
    have htw1 : 1 ≤ tw := by
      rw [htw]
      simp only [List.length_cons]
      omega
    have htwle : w.pos + tw ≤ w.buf.length := by
      rw [htw]
      omega
    have htwle2 : tw ≤ (d :: ds).length := by
      rw [htw]
      omega
    set w2 : TdsWriter :=
      { w with
          buf := w.buf.take w.pos ++ (d :: ds).take tw ++ w.buf.drop (w.pos + tw)
          pos := w.pos + tw } with hw2
    have hbuf2 : w2.buf.length = w.buf.length := by
      simp only [hw2, List.length_append, List.length_take, List.length_drop]
      omega
    obtain ⟨ps, hsent, hstat, hpay, hp1, hp2, hp3, hp4⟩ :=
      ih (by rw [hbuf2]; omega) (by show 8 ≤ w.pos + tw; omega)
        (by rw [hbuf2]; show w.pos + tw ≤ w.buf.length; omega)
    have hw : w.write (d :: ds) = w2.write ((d :: ds).drop tw) := by
      rw [TdsWriter.write]
      simp only [if_neg h1]
    rw [hw]
    have hlen1 : (w.buf.take w.pos ++ (d :: ds).take tw).length = w.pos + tw := by
      simp only [List.length_append, List.length_take]
      omega
    have hpend2 : pending w2 = pending w ++ (d :: ds).take tw := by
      unfold pending
      simp only [hw2]
      rw [show w.buf.take w.pos ++ (d :: ds).take tw ++ w.buf.drop (w.pos + tw)
            = (w.buf.take w.pos ++ (d :: ds).take tw) ++ w.buf.drop (w.pos + tw)
          from by rw [List.append_assoc]]
      rw [List.take_append_eq_append_take]
      rw [List.take_of_length_le (by rw [hlen1])]
      rw [hlen1]
      simp only [Nat.sub_self, List.take_zero, List.append_nil]
      rw [List.drop_append_eq_append_drop]
      simp only [List.length_take]
      have hk : 8 - w.pos ⊓ w.buf.length = 0 := by omega
      rw [hk]
      simp
    refine ⟨ps, ?_, hstat, ?_, hp1, hp2, by rw [hp3, hbuf2], hp4⟩
    · rw [hsent]
    · rw [hpay, hpend2]
      simp

/-- Writing a list of chunks preserves the same invariant. -/
theorem writes_spec : ∀ (chunks : List (List Nat)) (w : TdsWriter),
    8 < w.buf.length → 8 ≤ w.pos → w.pos ≤ w.buf.length →
    ∃ ps, (chunks.foldl TdsWriter.write w).sent = w.sent ++ ps ∧
      (∀ p ∈ ps, pktStatus p = 0) ∧
      payloads ps ++ pending (chunks.foldl TdsWriter.write w) = pending w ++ chunks.flatten ∧
      8 ≤ (chunks.foldl TdsWriter.write w).pos ∧
      (chunks.foldl TdsWriter.write w).pos ≤ (chunks.foldl TdsWriter.write w).buf.length ∧
      (chunks.foldl TdsWriter.write w).buf.length = w.buf.length ∧
      (chunks.foldl TdsWriter.write w).ptype = w.ptype := by
  intro chunks
  induction chunks with
  | nil =>
    intro w hbuf hpos hposle
    exact ⟨[], by simp [payloads], by simp, by simp [payloads], by simpa using hpos,
           by simpa using hposle, by simp, by simp⟩
  | cons c cs ih =>
    intro w hbuf hpos hposle
    simp only [List.foldl_cons, List.flatten_cons]
    obtain ⟨ps1, hsent1, hstat1, hpay1, hq1, hq2, hq3, hq4⟩ := write_spec w c hbuf hpos hposle
    obtain ⟨ps2, hsent2, hstat2, hpay2, hr1, hr2, hr3, hr4⟩ :=
      ih (w.write c) (by omega) hq1 hq2
    refine ⟨ps1 ++ ps2, ?_, ?_, ?_, hr1, hr2, by rw [hr3, hq3], by rw [hr4, hq4]⟩
    · rw [hsent2, hsent1, List.append_assoc]
    · intro p hp
      rcases List.mem_append.mp hp with hp | hp
      · exact hstat1 p hp
      · exact hstat2 p hp
    · have hps : payloads (ps1 ++ ps2) = payloads ps1 ++ payloads ps2 := by
        simp [payloads]
      rw [hps, List.append_assoc, hpay2, ← List.append_assoc, hpay1]
      simp

/-! ## Claim C1 -/

/-- C1: for every logical message written through _TdsWriter, if a payload
is written via any sequence of write calls (arbitrary chunking) after
begin_packet and followed by one flush, then the concatenation of the
payload parts (bytes after the 8-byte header) of the packets passed to
transport.sendall equals exactly the written bytes, and the final-status
bit (status low bit = 1) is set on the last emitted packet of the message
and on no other. -/
theorem writer_message_framing (w : TdsWriter) (packetType : Nat)
    (chunks : List (List Nat)) (hbuf : 8 < w.buf.length) :
    ∃ ps,
      ((chunks.foldl TdsWriter.write (w.begin_packet packetType)).flush).sent
        = w.sent ++ ps ∧
      payloads ps = chunks.flatten ∧
      ps ≠ [] ∧
      (∀ p ∈ ps.dropLast, pktStatus p = 0) ∧
      (∀ p, ps.getLast? = some p → pktStatus p = 1) := by
  obtain ⟨ps0, hsent, hstat, hpay, hq1, hq2, hq3, hq4⟩ :=
    writes_spec chunks (w.begin_packet packetType)
      (by simpa [TdsWriter.begin_packet] using hbuf)
      (by simp [TdsWriter.begin_packet])
      (by simp [TdsWriter.begin_packet]; omega)
  set res := chunks.foldl TdsWriter.write (w.begin_packet packetType) with hres
  rw [pending_begin_packet, List.nil_append] at hpay
  refine ⟨ps0 ++ [(packHeader res.ptype 1 res.pos 0 res.packetNo
                    ++ res.buf.drop 8).take res.pos], ?_, ?_, by simp, ?_, ?_⟩
  · rw [TdsWriter.flush, write_packet_sent, hsent]
    rw [show (w.begin_packet packetType).sent = w.sent from rfl]
    rw [List.append_assoc]
    simp
  · have hps : payloads (ps0 ++ [(packHeader res.ptype 1 res.pos 0 res.packetNo
                    ++ res.buf.drop 8).take res.pos])
        = payloads ps0 ++ pktPayload ((packHeader res.ptype 1 res.pos 0 res.packetNo
                    ++ res.buf.drop 8).take res.pos) := by
      simp [payloads]
    rw [hps, emitted_payload res 1 hq1, hpay]
  · intro p hp
    rw [List.dropLast_concat] at hp
    exact hstat p hp
  · intro p hp
    rw [List.getLast?_concat] at hp
    rw [← Option.some_inj.mp hp]
    exact emitted_status res 1 (by omega) (by omega)

/-- Witness for C1 at a concrete writer and chunk list. -/
theorem witness_writer_message_framing :
    8 < sampleWriter.buf.length ∧
    ∃ ps,
      (([[1, 2, 3], [4, 5, 6], [7]].foldl TdsWriter.write
          (sampleWriter.begin_packet 1)).flush).sent
        = sampleWriter.sent ++ ps ∧
      payloads ps = [[1, 2, 3], [4, 5, 6], [7]].flatten ∧
      ps ≠ [] ∧
      (∀ p ∈ ps.dropLast, pktStatus p = 0) ∧
      (∀ p, ps.getLast? = some p → pktStatus p = 1) :=
  ⟨by decide, writer_message_framing sampleWriter 1 [[1, 2, 3], [4, 5, 6], [7]] (by decide)⟩

/-! ## Claim C7 -/

/-- C7 counterexample: begin_packet does not reset the packet number.
After one flushed message the counter stands at 1; a new message started
with begin_packet still sees 1, and the first packet emitted for that new
message carries packet number 1 (header byte 6), not 0 as the claim
states. -/
theorem counterexample_packet_number_reset :
    (((sampleWriter.begin_packet 1).flush).begin_packet 2).packetNo = 1 ∧
    (((((sampleWriter.begin_packet 1).flush).begin_packet 2).flush).sent.getD 1 []).getD 6 99
      = 1 := by
  decide

/-- C7 amended: the writer's packet number is a u8 maintained modulo 256
and incremented by exactly one on each emitted packet, but begin_packet
does not reset it: it carries across the writer's lifetime, and the first
packet of a fresh message carries the current counter value. -/
theorem packet_number_monotonic (w : TdsWriter) (packetType : Nat) (final : Bool) :
    (w.write_packet final).packetNo = (w.packetNo + 1) % 256 ∧
    (w.begin_packet packetType).packetNo = w.packetNo ∧
    (w.begin_packet packetType).sent = w.sent ∧
    ((w.begin_packet packetType).flush).sent
      = w.sent ++ [packHeader packetType 1 8 0 w.packetNo] := by
  refine ⟨rfl, rfl, rfl, ?_⟩
  rw [TdsWriter.flush, write_packet_sent]
  rw [show (w.begin_packet packetType).sent = w.sent from rfl]
  rw [show (w.begin_packet packetType).ptype = packetType from rfl]
  rw [show (w.begin_packet packetType).pos = 8 from rfl]
  rw [show (w.begin_packet packetType).packetNo = w.packetNo from rfl]
  rw [show (w.begin_packet packetType).buf = w.buf from rfl]
  rw [take8_packHeader]
  simp

/-! ## Claim C2 -/

/-- C2: set_state permits exactly the documented transitions (QUERYING
only from IDLE, READING only from PENDING, PENDING only from QUERYING or
READING, IDLE from any state except DEAD, DEAD from any state, same-state
always allowed); every illegal transition request raises InterfaceError
synchronously and returns the session unchanged (in particular
session.state is unchanged). -/
theorem set_state_transitions (s : Sess) (st : TdsState) :
    ((set_state s st).2 = none ↔ legalTransition s.state st = true) ∧
    ((set_state s st).2 = none ∨ set_state s st = (s, some Exc.interfaceError)) := by
  obtain ⟨s0, ic, ms, ra, df, mr, em, isp, ri, t72⟩ := s
  cases s0 <;> cases st <;>
    simp [set_state, legalTransition]

/-! ## Lemmas about the reader primitives and the DONE handler -/

theorem getUsmallint_u16le (v : Nat) (r : List Nat) :
    getUsmallint (u16le v ++ r) = some (v, r) := by
  simp [getUsmallint, getUintLE, readBytes, u16le, leValue]
  omega

theorem getInt8_of_len (l : List Nat) (h : 8 ≤ l.length) :
    getInt8 l = some (toSigned 64 (leValue (l.take 8)), l.drop 8) := by
  simp [getInt8, getUintLE, readBytes, h]

theorem getInt_of_len (l : List Nat) (h : 4 ≤ l.length) :
    getInt l = some (toSigned 32 (leValue (l.take 4)), l.drop 4) := by
  simp [getInt, getUintLE, readBytes, h]

theorem set_state_idle (s : Sess) (h : s.state ≠ .dead) :
    set_state s .idle = ({ s with state := .idle }, none) := by
  obtain ⟨s0, ic, ms, ra, df, mr, em, isp, ri, t72⟩ := s
  cases s0 <;> simp_all [set_state]

theorem raise_db_preserves (pE iE : Nat → Bool) (s : Sess) :
    ((raise_db_exception pE iE s).1).state = s.state ∧
    ((raise_db_exception pE iE s).1).inCancel = s.inCancel := by
  unfold raise_db_exception
  split
  · simp
  · rcases h : trimLoop s.messages with ⟨ms, mo⟩
    cases mo <;> simp [h]

/-- The error-elevation tail of process_end keeps the state and cancel
flag that the DONE handling established. -/
theorem final_step_state (pE iE : Nat → Bool) (s5 : Sess) (rd3 : List Nat) (cond : Bool)
    (hst : s5.state = .idle) (hic : s5.inCancel = false) :
    ((if cond then
        some ((raise_db_exception pE iE s5).1, rd3, some (raise_db_exception pE iE s5).2)
      else some (s5, rd3, none)).map
        (fun r : Sess × List Nat × Option Exc => (r.1.state, r.1.inCancel)))
      = some (TdsState.idle, false) := by
  cases cond
  · simp [hst, hic]
  · have h := raise_db_preserves pE iE s5
    simp [h.1, h.2, hst, hic]

/-! ## Claim C3 -/

/-- C3: for every session not in DEAD state, after process_end handles a
DONE/DONEPROC/DONEINPROC token whose status has the MORE bit (0x01) unset
while in_cancel is false, the session state is IDLE and in_cancel is
false (also when the handler goes on to raise a database exception). -/
theorem done_token_returns_idle (pE iE : Nat → Bool) (s : Sess)
    (marker status curCmd : Nat) (tail : List Nat)
    (hdead : s.state ≠ .dead) (hic : s.inCancel = false)
    (hmore : status &&& TDS_DONE_MORE_RESULTS = 0) (hstatus : status < 65536)
    (hlen : 8 ≤ tail.length) :
    (process_end pE iE s marker (doneStream status curCmd tail)).map
        (fun r => (r.1.state, r.1.inCancel)) = some (TdsState.idle, false) := by
  unfold process_end doneStream
  rw [List.append_assoc]
  simp only [getUsmallint_u16le]
  rcases hri : s.resInfo with _ | ri <;> simp only [hri] <;>
  · rcases h64 : (if s.tds72plus = true then getInt8 tail else getInt tail)
      with _ | ⟨ra, rd3⟩
    · exfalso
      by_cases h72c : s.tds72plus <;>
        simp [h72c, getInt8_of_len tail hlen, getInt_of_len tail (by omega)] at h64
    · simp only [h64]
      have hcond : ((status &&& TDS_DONE_CANCELLED != 0)
          || (!(status &&& TDS_DONE_MORE_RESULTS != 0) && !s.inCancel)) = true := by
        simp [hic, hmore]
      rw [if_pos hcond, set_state_idle _ (by simpa using hdead)]
      split
      · next s3 e heq =>
        exact absurd (congrArg Prod.snd heq) (by simp)
      · next s3 heq =>
        injection heq with h1 h2
        subst h1
        exact final_step_state pE iE _ rd3 _ (by split <;> rfl) (by split <;> rfl)

/-- Witness for C3 at a concrete session and DONE stream (status 0x10:
COUNT set, MORE unset). -/
theorem witness_done_token_returns_idle :
    (sampleSess.state ≠ .dead ∧ sampleSess.inCancel = false ∧
      16 &&& TDS_DONE_MORE_RESULTS = 0 ∧ 16 < 65536 ∧
      8 ≤ ([0, 0, 0, 0, 0, 0, 0, 0] : List Nat).length) ∧
    (process_end (fun _ => false) (fun _ => false) sampleSess 253
        (doneStream 16 0 [0, 0, 0, 0, 0, 0, 0, 0])).map
      (fun r => (r.1.state, r.1.inCancel)) = some (TdsState.idle, false) :=
  ⟨by decide,
   done_token_returns_idle (fun _ => false) (fun _ => false) sampleSess 253 16 0
     [0, 0, 0, 0, 0, 0, 0, 0] (by decide) (by decide) (by decide) (by decide) (by decide)⟩

/-! ## Lemmas about raise_db_exception and the trimming loop -/

theorem trimLoop_all (ms : List Msg) (h : ∀ m ∈ ms, m.msgno = 3621) :
    trimLoop ms = ([], none) := by
  induction ms using List.reverseRecOn with
  | nil =>
    rw [trimLoop]
    rfl
  | append_singleton as a ih =>
    rw [trimLoop]
    split
    · next heq =>
      simp at heq
    · next m heq =>
      rw [List.getLast?_concat] at heq
      injection heq with hm
      subst hm
      rw [if_pos (h a (by simp))]
      rw [List.dropLast_concat]
      exact ih (fun x hx => h x (by simp [hx]))

theorem trimLoop_exists (ms : List Msg) (h : ∃ m ∈ ms, m.msgno ≠ 3621) :
    trimLoop ms = (specTrim ms, (specTrim ms).getLast?) ∧ specTrim ms ≠ [] := by
  induction ms using List.reverseRecOn with
  | nil => simp at h
  | append_singleton as a ih =>
    rw [trimLoop]
    split
    · next heq =>
      simp at heq
    · next m heq =>
      rw [List.getLast?_concat] at heq
      injection heq with hm
      subst hm
      by_cases ha : a.msgno = 3621
      · have h' : ∃ x ∈ as, x.msgno ≠ 3621 := by
          rcases h with ⟨x, hx, hne⟩
          rcases List.mem_append.mp hx with hx | hx
          · exact ⟨x, hx, hne⟩
          · simp at hx
            subst hx
            exact absurd ha hne
        have hspec : specTrim (as ++ [a]) = specTrim as := by
          simp [specTrim, List.dropWhile, ha]
        rw [if_pos ha, List.dropLast_concat, hspec]
        exact ih h'
      · have hspec : specTrim (as ++ [a]) = as ++ [a] := by
          simp [specTrim, List.dropWhile, ha]
        rw [if_neg ha, hspec]
        simp

theorem raise_db_all3621 (pE iE : Nat → Bool) (s : Sess)
    (hne : s.messages ≠ []) (hall : ∀ m ∈ s.messages, m.msgno = 3621) :
    raise_db_exception pE iE s = ({ s with messages := [] }, .indexError) := by
  unfold raise_db_exception
  rw [if_neg hne, trimLoop_all s.messages hall]

theorem raise_db_typed (pE iE : Nat → Bool) (s : Sess)
    (h : ∃ m ∈ s.messages, m.msgno ≠ 3621) :
    ∃ c, (specTrim s.messages).getLast? = some c ∧
      raise_db_exception pE iE s
        = ({ s with messages := specTrim s.messages },
           create_exception_by_message pE iE c
             (some (joinSpace ((specTrim s.messages).map Msg.message)))) := by
  have hne : s.messages ≠ [] := by
    rcases h with ⟨m, hm, _⟩
    exact List.ne_nil_of_mem hm
  obtain ⟨htl, hnespec⟩ := trimLoop_exists s.messages h
  rcases hg : (specTrim s.messages).getLast? with _ | c
  · exact absurd (List.getLast?_eq_none_iff.mp hg) hnespec
  · refine ⟨c, rfl, ?_⟩
    unfold raise_db_exception
    rw [if_neg hne, htl, hg]

/-- The exception raise_db_exception builds equals the spec-side
description whenever some accumulated message has msgno other than 3621. -/
theorem raise_db_spec_exc (pE iE : Nat → Bool) (s : Sess)
    (h : ∃ m ∈ s.messages, m.msgno ≠ 3621) :
    (raise_db_exception pE iE s).2 = specDbException pE iE s.messages := by
  obtain ⟨c, hc, heq⟩ := raise_db_typed pE iE s h
  rw [heq]
  simp [specDbException, hc]

/-! ## Claim C10 -/

/-- C10: when raise_db_exception runs with a non-empty message list, the
trailing-3621 trimming loop empties the list exactly when every message
has msgno 3621, in which case the messages[-1] access raises IndexError
instead of the documented typed database exception; the documented
database exception is produced exactly when at least one accumulated
message has a msgno different from 3621. -/
theorem all_3621_messages_index_error (pE iE : Nat → Bool) (s : Sess)
    (hne : s.messages ≠ []) :
    (((raise_db_exception pE iE s).2 = .indexError)
        ↔ (∀ m ∈ s.messages, m.msgno = 3621)) ∧
    ((isDbException (raise_db_exception pE iE s).2 = true)
        ↔ (∃ m ∈ s.messages, m.msgno ≠ 3621)) := by
  by_cases hall : ∀ m ∈ s.messages, m.msgno = 3621
  · rw [raise_db_all3621 pE iE s hne hall]
    constructor
    · exact ⟨fun _ => hall, fun _ => rfl⟩
    · constructor
      · intro hdb
        simp [isDbException] at hdb
      · rintro ⟨m, hm, hne2⟩
        exact absurd (hall m hm) hne2
  · have hex : ∃ m ∈ s.messages, m.msgno ≠ 3621 := by
      push_neg at hall
      exact hall
    obtain ⟨c, hc, heq⟩ := raise_db_typed pE iE s hex
    rw [heq]
    constructor
    · constructor
      · intro hidx
        exfalso
        by_cases hp : pE c.msgno <;> by_cases hi : iE c.msgno <;>
          simp [create_exception_by_message, hp, hi] at hidx
      · intro hall2
        exact absurd hall2 hall
    · constructor
      · intro _
        exact hex
      · intro _
        by_cases hp : pE c.msgno <;> by_cases hi : iE c.msgno <;>
          simp [create_exception_by_message, isDbException, hp, hi]

/-- Witness for C10 at a concrete session with one ordinary message. -/
theorem witness_all_3621_messages_index_error :
    sampleSess.messages ≠ [] ∧
    ((((raise_db_exception (fun _ => false) (fun _ => false) sampleSess).2 = .indexError)
        ↔ (∀ m ∈ sampleSess.messages, m.msgno = 3621)) ∧
     ((isDbException (raise_db_exception (fun _ => false) (fun _ => false) sampleSess).2 = true)
        ↔ (∃ m ∈ sampleSess.messages, m.msgno ≠ 3621))) :=
  ⟨by decide,
   all_3621_messages_index_error (fun _ => false) (fun _ => false) sampleSess (by decide)⟩

/-- The raised exception depends on the session only through its message
list. -/
theorem raise_db_snd_congr (pE iE : Nat → Bool) (x y : Sess)
    (h : x.messages = y.messages) :
    (raise_db_exception pE iE x).2 = (raise_db_exception pE iE y).2 := by
  unfold raise_db_exception
  rw [h]
  by_cases hne : y.messages = []
  · rw [if_pos hne, if_pos hne]
  · rw [if_neg hne, if_neg hne]
    rcases htl : trimLoop y.messages with ⟨ms, _ | m⟩ <;> simp [htl]

/-- The error-elevation tail of process_end surfaces exactly the exception
raise_db_exception builds. -/
theorem final_step_exc (pE iE : Nat → Bool) (s5 : Sess) (rd3 : List Nat) (cond : Bool)
    (hcond : cond = true) :
    ((if cond then
        some ((raise_db_exception pE iE s5).1, rd3, some (raise_db_exception pE iE s5).2)
      else some (s5, rd3, none)).map
        (fun r : Sess × List Nat × Option Exc => r.2.2))
      = some (some (raise_db_exception pE iE s5).2) := by
  subst hcond
  simp

/-- When process_end handles a last DONE token (MORE unset) carrying the
ERROR bit with the cancel flags clear on a live session, the exception it
propagates is the one raise_db_exception builds from the session's
accumulated messages. -/
theorem process_end_error_exc (pE iE : Nat → Bool) (s : Sess)
    (marker status curCmd : Nat) (tail : List Nat)
    (hdead : s.state ≠ .dead) (hic : s.inCancel = false)
    (hmore : status &&& TDS_DONE_MORE_RESULTS = 0)
    (herr : status &&& TDS_DONE_ERROR ≠ 0)
    (hcanc : status &&& TDS_DONE_CANCELLED = 0)
    (hlen : 8 ≤ tail.length) :
    (process_end pE iE s marker (doneStream status curCmd tail)).map
        (fun r => r.2.2)
      = some (some (raise_db_exception pE iE s).2) := by
  unfold process_end doneStream
  rw [List.append_assoc]
  simp only [getUsmallint_u16le]
  rcases hri : s.resInfo with _ | ri <;> simp only [hri] <;>
  · rcases h64 : (if s.tds72plus = true then getInt8 tail else getInt tail)
      with _ | ⟨ra, rd3⟩
    · exfalso
      by_cases h72c : s.tds72plus <;>
        simp [h72c, getInt8_of_len tail hlen, getInt_of_len tail (by omega)] at h64
    · simp only [h64]
      have hcond : ((status &&& TDS_DONE_CANCELLED != 0)
          || (!(status &&& TDS_DONE_MORE_RESULTS != 0) && !s.inCancel)) = true := by
        simp [hic, hmore]
      rw [if_pos hcond, set_state_idle _ (by simpa using hdead)]
      split
      · next s3 e heq =>
        exact absurd (congrArg Prod.snd heq) (by simp)
      · next s3 heq =>
        injection heq with h1 h2
        subst h1
        by_cases hcount : (status &&& TDS_DONE_COUNT != 0) = true
        · rw [if_pos hcount]
          refine (final_step_exc pE iE _ rd3 _ (by simp [herr, hcanc])).trans ?_
          exact congrArg (fun e => some (some e)) (raise_db_snd_congr pE iE _ s rfl)
        · rw [if_neg hcount]
          refine (final_step_exc pE iE _ rd3 _ (by simp [herr, hcanc])).trans ?_
          exact congrArg (fun e => some (some e)) (raise_db_snd_congr pE iE _ s rfl)

/-! ## Claim C4 -/

/-- C4 counterexample: a last DONE with the ERROR bit set, cancel flags
clear, and a non-empty message list consisting of a single msgno-3621
message makes raise_db_exception empty the list and fail with IndexError;
no Programming/Integrity/Operational database exception is raised, against
the claim's assertion for every non-empty message list. -/
theorem counterexample_error_elevation :
    (process_end (fun _ => false) (fun _ => false) sampleSessAll3621 253
        (doneStream 2 0 [0, 0, 0, 0, 0, 0, 0, 0])).map (fun r => r.2.2)
      = some (some Exc.indexError) ∧
    isDbException Exc.indexError = false := by
  constructor
  · rw [process_end_error_exc (fun _ => false) (fun _ => false) sampleSessAll3621 253 2 0
        [0, 0, 0, 0, 0, 0, 0, 0] (by decide) (by decide) (by decide) (by decide) (by decide)
        (by decide)]
    rw [raise_db_all3621 (fun _ => false) (fun _ => false) sampleSessAll3621 (by decide)
        (by decide)]
  · rfl

/-- C4 amended: when process_end handles the last DONE token (MORE bit
unset) with the ERROR status bit set, the cancel flags clear, a session
not in DEAD state, and a message list containing at least one message
whose msgno is not 3621, the session raises an exception whose message is
the space-joined text of the message list after the trailing msgno-3621
messages are removed, typed by the remaining last message's msgno:
ProgrammingError if it is in the programming-error set, IntegrityError if
in the integrity-error set, otherwise OperationalError. -/
theorem error_done_raises_classified (pE iE : Nat → Bool) (s : Sess)
    (marker status curCmd : Nat) (tail : List Nat)
    (hdead : s.state ≠ .dead) (hic : s.inCancel = false)
    (hmore : status &&& TDS_DONE_MORE_RESULTS = 0)
    (herr : status &&& TDS_DONE_ERROR ≠ 0)
    (hcanc : status &&& TDS_DONE_CANCELLED = 0)
    (hstatus : status < 65536) (hlen : 8 ≤ tail.length)
    (hex : ∃ m ∈ s.messages, m.msgno ≠ 3621) :
    (process_end pE iE s marker (doneStream status curCmd tail)).map
        (fun r => r.2.2)
      = some (some (specDbException pE iE s.messages)) := by
  rw [process_end_error_exc pE iE s marker status curCmd tail hdead hic hmore herr hcanc hlen]
  rw [raise_db_spec_exc pE iE s hex]

/-- Witness for the amended C4 at a concrete session and DONE stream. -/
theorem witness_error_done_raises_classified :
    (sampleSess.state ≠ .dead ∧ sampleSess.inCancel = false ∧
      2 &&& TDS_DONE_MORE_RESULTS = 0 ∧ 2 &&& TDS_DONE_ERROR ≠ 0 ∧
      2 &&& TDS_DONE_CANCELLED = 0 ∧ 2 < 65536 ∧
      8 ≤ ([0, 0, 0, 0, 0, 0, 0, 0] : List Nat).length ∧
      (∃ m ∈ sampleSess.messages, m.msgno ≠ 3621)) ∧
    (process_end (fun n => n == 105) (fun _ => false) sampleSess 253
        (doneStream 2 0 [0, 0, 0, 0, 0, 0, 0, 0])).map (fun r => r.2.2)
      = some (some (specDbException (fun n => n == 105) (fun _ => false)
          sampleSess.messages)) :=
  ⟨by decide,
   error_done_raises_classified (fun n => n == 105) (fun _ => false) sampleSess 253 2 0
     [0, 0, 0, 0, 0, 0, 0, 0] (by decide) (by decide) (by decide) (by decide) (by decide)
     (by decide) (by decide) (by decide)⟩

/-! ## Claim C9 -/

set_option maxRecDepth 4000 in
/-- Applying the claimed inverse (XOR 0xA5 then nibble swap) undoes the
password byte transform on every byte value. -/
theorem uncrypt_crypt : ∀ b, b < 256 → uncryptByte (cryptByte b) = b := by decide

theorem ucs2encode_lt (l : List Nat) : ∀ b ∈ ucs2encode l, b < 256 := by
  induction l with
  | nil =>
    intro b hb
    simp [ucs2encode] at hb
  | cons u us ih =>
    intro b hb
    rw [show ucs2encode (u :: us) = u % 256 :: u / 256 % 256 :: ucs2encode us from rfl] at hb
    rcases List.mem_cons.mp hb with hb | hb
    · subst hb
      omega
    · rcases List.mem_cons.mp hb with hb | hb
      · subst hb
        omega
      · exact ih b hb

theorem map_uncrypt_crypt (l : List Nat) (h : ∀ b ∈ l, b < 256) :
    (l.map cryptByte).map uncryptByte = l := by
  induction l with
  | nil => rfl
  | cons b bs ih =>
    simp only [List.map_cons, List.cons.injEq]
    exact ⟨uncrypt_crypt b (h b (by simp)), ih (fun x hx => h x (by simp [hx]))⟩

/-- C9: tds7_crypt_pass maps each byte b of the UCS-2-LE-encoded password
to (((b shifted left 4) mod 256) or (b shifted right 4)) xor 0xA5, and the
transform is invertible: on any byte sequence, applying it and then its
inverse (XOR 0xA5 followed by nibble swap) yields the original bytes; in
particular the encoded password is recovered. -/
theorem crypt_pass_involution (password l : List Nat) (h : ∀ b ∈ l, b < 256) :
    tds7_crypt_pass password = (ucs2encode password).map cryptByte ∧
    (l.map cryptByte).map uncryptByte = l ∧
    (tds7_crypt_pass password).map uncryptByte = ucs2encode password := by
  refine ⟨rfl, map_uncrypt_crypt l h, ?_⟩
  exact map_uncrypt_crypt (ucs2encode password) (ucs2encode_lt password)

/-- Witness for C9 at a concrete password and byte list. -/
theorem witness_crypt_pass_involution :
    (∀ b ∈ ([7, 200] : List Nat), b < 256) ∧
    (tds7_crypt_pass [104, 1105] = (ucs2encode [104, 1105]).map cryptByte ∧
     (([7, 200] : List Nat).map cryptByte).map uncryptByte = [7, 200] ∧
     (tds7_crypt_pass [104, 1105]).map uncryptByte = ucs2encode [104, 1105]) :=
  ⟨by decide, crypt_pass_involution [104, 1105] [7, 200] (by decide)⟩

/-! ## Claim C5 -/

/-- C5 counterexample: with the server flag ENCRYPT_OFF and the client
flag ENCRYPT_NOT_SUP, parse_prelogin establishes a TLS channel (used for
the login packet), not the no-encryption outcome the claim's matrix
assigns to that cell. -/
theorem counterexample_prelogin_matrix :
    parse_prelogin (encPacket ENCRYPT_OFF) ENCRYPT_NOT_SUP
      = .ok { serverEncFlag := ENCRYPT_OFF, tlsEstablished := true,
              marsEnabled := none, serverVersion := none } := by
  rfl

/-- C5 amended: the encryption matrix parse_prelogin implements over
(server flag, client flag) is: for server OFF an InterfaceError for client
ON and TLS established (login encrypted, channel later reverted) for
client OFF, REQ and NOT_SUP; for server ON TLS established for every
client flag; for server REQ an error for client NOT_SUP and TLS
established otherwise; for server NOT_SUP an error for client ON and no
encryption for client OFF, REQ and NOT_SUP. -/
theorem prelogin_encryption_matrix (sflag cflag : Nat)
    (hs : sflag < 4) (hc : cflag < 4) :
    parse_prelogin (encPacket sflag) cflag
      = (if sflag = 0 ∧ cflag = 1 then .error .interfaceError
         else if sflag = 2 ∧ cflag = 3 then .error .genericError
         else if sflag = 3 ∧ cflag = 1 then .error .genericError
         else .ok { serverEncFlag := sflag, tlsEstablished := sflag != 3,
                    marsEnabled := none, serverVersion := none }) := by
  interval_cases sflag <;> interval_cases cflag <;> rfl

/-- Witness for the amended C5 at server flag ON, client flag REQ. -/
theorem witness_prelogin_encryption_matrix :
    (1 : Nat) < 4 ∧ (2 : Nat) < 4 ∧
    parse_prelogin (encPacket 1) 2
      = .ok { serverEncFlag := 1, tlsEstablished := true,
              marsEnabled := none, serverVersion := none } :=
  ⟨by decide, by decide,
   (prelogin_encryption_matrix 1 2 (by decide) (by decide)).trans (by rfl)⟩

/-! ## Claim C6 -/

theorem flush_begin_sent (w : TdsWriter) (t : Nat) :
    ((w.begin_packet t).flush).sent = w.sent ++ [packHeader t 1 8 0 w.packetNo] := by
  rw [TdsWriter.flush, write_packet_sent]
  rw [show (w.begin_packet t).sent = w.sent from rfl]
  rw [show (w.begin_packet t).ptype = t from rfl]
  rw [show (w.begin_packet t).pos = 8 from rfl]
  rw [show (w.begin_packet t).packetNo = w.packetNo from rfl]
  rw [show (w.begin_packet t).buf = w.buf from rfl]
  rw [take8_packHeader]
  simp

theorem put_cancel_sent (w : TdsWriter) :
    (put_cancel w).1.sent = w.sent ++ [cancelWire w] := by
  unfold put_cancel cancelWire
  exact flush_begin_sent w CANCEL_PACKET

/-- C6 counterexample: when the 8-byte header arrives intact and the
transport times out while reading the remaining body bytes, read_packet
propagates the timeout without emitting any CANCEL request: the writer
sends nothing.  The claim asserts a CANCEL is emitted for body timeouts
too. -/
theorem counterexample_body_timeout_no_cancel :
    (read_packet sampleWriter false
        [RecvEvent.chunk [4, 1, 0, 9, 0, 0, 0, 0], RecvEvent.timeout]).err
      = some Exc.timeoutError ∧
    (read_packet sampleWriter false
        [RecvEvent.chunk [4, 1, 0, 9, 0, 0, 0, 0], RecvEvent.timeout]).writer.sent
      = [] ∧
    sampleWriter.sent = [] := by
  decide

/-- C6 amended: _TdsReader._read_packet emits a CANCEL request via
put_cancel (setting in_cancel) before propagating a timeout exactly when
the timeout occurs while reading the 8-byte header; a timeout during the
body read propagates with the writer untouched; and any transport read
returning zero bytes raises ClosedConnectionError. -/
theorem read_packet_cancel_behavior (w : TdsWriter) (ic : Bool)
    (script : List RecvEvent) :
    ((read_packet w ic script).writer
        = (if headerTimeout script then (w.begin_packet CANCEL_PACKET).flush else w)) ∧
    ((read_packet w ic script).writer.sent
        = (if headerTimeout script then w.sent ++ [cancelWire w] else w.sent)) ∧
    ((read_packet w ic script).inCancel = (if headerTimeout script then true else ic)) ∧
    ((read_packet w ic script).err = some Exc.closedConnection
        ↔ readClosed script = true) ∧
    ((read_packet w ic script).err = some Exc.timeoutError
        ↔ (headerTimeout script || bodyTimeout script) = true) := by
  rcases h1 : recvLoop script 8 [] with ⟨hdr, rest⟩ | rest | rest | _
  · rcases h2 : recvLoop rest (hdr.getD 2 0 * 256 + hdr.getD 3 0) hdr
      with ⟨full, rest2⟩ | rest2 | rest2 | _ <;>
      (simp only [List.getD, List.get?_eq_getElem?] at h2
       simp [read_packet, headerTimeout, bodyTimeout, readClosed, List.getD, h1, h2])
  · simp [read_packet, headerTimeout, bodyTimeout, readClosed, h1, put_cancel,
          flush_begin_sent, cancelWire]
  · simp [read_packet, headerTimeout, bodyTimeout, readClosed, h1]
  · simp [read_packet, headerTimeout, bodyTimeout, readClosed, h1]

/-! ## Lemmas about decimal strings and UCS-2 round trips -/

theorem digitsRev_le (n : Nat) : ∀ d ∈ digitsRev n, d ≤ 9 := by
  induction n using Nat.strong_induction_on with
  | _ n ih =>
    rw [digitsRev]
    split
    · simp
    · next h =>
      intro d hd
      rcases List.mem_cons.mp hd with hd | hd
      · subst hd
        omega
      · exact ih (n / 10) (Nat.div_lt_self (Nat.pos_of_ne_zero h) (by omega)) d hd

theorem foldr_digitsRev (n : Nat) :
    (digitsRev n).foldr (fun d a => a * 10 + d) 0 = n := by
  induction n using Nat.strong_induction_on with
  | _ n ih =>
    rw [digitsRev]
    split
    · next h => simp [h]
    · next h =>
      simp only [List.foldr_cons]
      rw [ih (n / 10) (Nat.div_lt_self (Nat.pos_of_ne_zero h) (by omega))]
      omega

theorem ofDigits_decimalDigits (n : Nat) :
    (decimalDigits n).foldl (fun a d => a * 10 + d) 0 = n := by
  unfold decimalDigits
  split
  · next h => simp [h]
  · rw [List.foldl_reverse]
    exact foldr_digitsRev n

theorem decimalDigits_le (n : Nat) : ∀ d ∈ decimalDigits n, d ≤ 9 := by
  unfold decimalDigits
  split
  · simp
  · intro d hd
    rw [List.mem_reverse] at hd
    exact digitsRev_le n d hd

theorem decimalDigits_ne_nil (n : Nat) : decimalDigits n ≠ [] := by
  unfold decimalDigits
  split
  · simp
  · next h =>
    rw [digitsRev, dif_neg h]
    simp

theorem decimalUnits_lt (n : Nat) : ∀ u ∈ decimalUnits n, u < 65536 := by
  intro u hu
  rw [decimalUnits, List.mem_map] at hu
  obtain ⟨d, hd, rfl⟩ := hu
  have := decimalDigits_le n d hd
  omega

theorem pythonInt_decimalUnits (v : Nat) : pythonInt (decimalUnits v) = some v := by
  unfold pythonInt
  have h1 : decimalUnits v ≠ [] := by
    rw [decimalUnits]
    simp [decimalDigits_ne_nil v]
  have h2 : (decimalUnits v).all isDigitUnit = true := by
    rw [List.all_eq_true]
    intro u hu
    rw [decimalUnits, List.mem_map] at hu
    obtain ⟨d, hd, rfl⟩ := hu
    have := decimalDigits_le v d hd
    simp [isDigitUnit]
    omega
  rw [if_pos ⟨h1, h2⟩]
  rw [decimalUnits, List.foldl_map]
  simp only [Nat.add_sub_cancel]
  rw [ofDigits_decimalDigits v]

theorem ucs2encode_length (l : List Nat) : (ucs2encode l).length = 2 * l.length := by
  induction l with
  | nil => rfl
  | cons u us ih =>
    rw [show ucs2encode (u :: us) = u % 256 :: u / 256 % 256 :: ucs2encode us from rfl]
    simp [ih]
    omega

theorem ucs2decode_encode (l : List Nat) (h : ∀ u ∈ l, u < 65536) :
    ucs2decode (ucs2encode l) = l := by
  induction l with
  | nil => rfl
  | cons u us ih =>
    rw [show ucs2encode (u :: us) = u % 256 :: u / 256 % 256 :: ucs2encode us from rfl]
    rw [show ucs2decode (u % 256 :: u / 256 % 256 :: ucs2encode us)
          = (u % 256 + 256 * (u / 256 % 256)) :: ucs2decode (ucs2encode us) from rfl]
    congr 1
    · have := h u (by simp)
      omega
    · exact ih (fun x hx => h x (by simp [hx]))

theorem readUcs2_encode (l r : List Nat) (h : ∀ u ∈ l, u < 65536) :
    readUcs2 l.length (ucs2encode l ++ r) = some (l, r) := by
  unfold readUcs2 readBytes
  rw [show 2 * l.length = (ucs2encode l).length from (ucs2encode_length l).symm]
  rw [if_pos (by simp)]
  rw [List.take_left, List.drop_left]
  simp [ucs2decode_encode l h]

theorem set_bufsize_length (w : TdsWriter) (n : Nat) :
    (w.set_bufsize n).buf.length = n := by
  unfold TdsWriter.set_bufsize
  split
  · next h => exact h
  · split
    · next h2 =>
      simp only [List.length_append, List.length_replicate]
      omega
    · next h2 =>
      simp only [List.length_take]
      omega

theorem getSmallint_cons (a b : Nat) (r : List Nat) :
    getSmallint (a :: b :: r) = some (toSigned 16 (a + 256 * b), r) := by
  simp [getSmallint, getUintLE, readBytes, leValue]

/-! ## Claim C8 -/

/-- C8: when process_env_chg handles a packet-size ENVCHANGE whose new
value is the decimal string of v (old value empty), the writer's buffer is
resized to v exactly when 512 ≤ v, and for v < 512 the change is silently
ignored; in either case every other session and connection field is left
unchanged, and the resulting buffer size is v when 512 ≤ v and the old
size otherwise. -/
theorem packsize_envchange (lcid2charset : Nat → List Nat) (st : EnvState)
    (szb0 szb1 v : Nat) (tail : List Nat) :
    process_env_chg lcid2charset st (packsizeStream szb0 szb1 v tail)
      = some ((if 512 ≤ v then { st with writer := st.writer.set_bufsize v } else st),
              tail) ∧
    ((if 512 ≤ v then { st with writer := st.writer.set_bufsize v } else st).writer.buf.length
      = if 512 ≤ v then v else st.writer.buf.length) := by
  constructor
  · unfold process_env_chg packsizeStream
    rw [getSmallint_cons]
    simp only [getByte]
    rw [show TDS_ENV_PACKSIZE = 4 from rfl]
    simp only [show (4 = TDS_ENV_SQLCOLLATION) = False by simp [TDS_ENV_SQLCOLLATION],
      show (4 = TDS_ENV_BEGINTRANS) = False by simp [TDS_ENV_BEGINTRANS],
      show (4 = TDS_ENV_COMMITTRANS ∨ 4 = TDS_ENV_ROLLBACKTRANS) = False by
        simp [TDS_ENV_COMMITTRANS, TDS_ENV_ROLLBACKTRANS],
      show (4 = TDS_ENV_PACKSIZE) = True by simp [TDS_ENV_PACKSIZE],
      if_true, if_false]
    rw [readUcs2_encode (decimalUnits v) (0 :: tail) (decimalUnits_lt v)]
    simp only [getByte]
    rw [show readUcs2 0 tail = some ([], tail) from by simp [readUcs2, readBytes, ucs2decode]]
    rw [pythonInt_decimalUnits v]
    by_cases hv : 512 ≤ v
    · simp [hv]
    · simp [hv]
  · by_cases hv : 512 ≤ v
    · rw [if_pos hv, if_pos hv]
      exact set_bufsize_length st.writer v
    · rw [if_neg hv, if_neg hv]

end Pytds
